import Mathlib

/-!
Verification development for the mulan-ext/log repository (a zap-based
logging facade with DSN-configured file and HTTP sink adaptors).

The Go source is shallowly embedded below:
* pure string/byte manipulation is modelled on `List Char` / `List Nat`;
* Go `int` (64-bit) arithmetic is modelled on `Int`, with explicit
  wrap-around (`i64wrap`) and range checks where the source can overflow;
* fallible functions return `Option` / `Except`;
* the standard-library collaborators the source calls (`net/url`,
  `strconv.Atoi`, `time.ParseDuration`, `zapcore.ParseLevel`,
  `bytes.TrimSpace`) are modelled from their documented behaviour on the
  DSN domain this repository uses (ASCII text, no percent-escapes, no
  userinfo, no fragments);
* the HTTP batch writer's network interaction is modelled by an explicit
  response oracle, and its per-request context by a `ctxDone` flag.
-/

namespace MulanLog

/-! ## Character and byte helpers -/

/-- Decimal digit test, as in the regexes and `strconv` code paths. -/
def isDigitChar (c : Char) : Bool := decide ('0' ≤ c ∧ c ≤ '9')

/-- The whitespace characters trimmed by Go `strings.TrimSpace`
(`unicode.IsSpace` in the Latin-1 range: HT LF VT FF CR SP NEL NBSP). -/
def isGoSpace (c : Char) : Bool :=
  decide (c = ' ' ∨ c = '\t' ∨ c = '\n' ∨ c = '\x0b' ∨ c = '\x0c' ∨ c = '\r' ∨
    c = '\x85' ∨ c = '\xa0')

/-- Model of `strings.TrimSpace` on a character list. -/
def goTrimSpace (l : List Char) : List Char :=
  ((l.dropWhile isGoSpace).reverse.dropWhile isGoSpace).reverse

/-- ASCII lowercasing, the restriction of Go `strings.ToLower` to the
ASCII alphabet (all characters the size/day regexes can accept). -/
def asciiLower (c : Char) : Char :=
  if 'A' ≤ c ∧ c ≤ 'Z' then Char.ofNat (c.toNat + 32) else c

/-- Numeric value of a list of decimal digit characters. -/
def digitsVal (l : List Char) : Nat :=
  l.foldl (fun a c => a * 10 + (c.toNat - 48)) 0

/-- The whitespace bytes trimmed by `bytes.TrimSpace` on ASCII data
(HT LF VT FF CR SP). Records are JSON-encoded lines, whose surrounding
whitespace is ASCII. -/
def isSpaceByte (b : Nat) : Bool := decide (b = 9 ∨ b = 10 ∨ b = 11 ∨ b = 12 ∨ b = 13 ∨ b = 32)

/-- Model of `bytes.TrimSpace` on a byte list. -/
def goBytesTrimSpace (l : List Nat) : List Nat :=
  ((l.dropWhile isSpaceByte).reverse.dropWhile isSpaceByte).reverse

/-- `cutAt c l` splits `l` at the first occurrence of `c`, dropping that
occurrence: Go's `split(s, c, cutc=true)` from `net/url`, also the
behaviour of `strings.Cut`. Returns `(l, [])` when `c` is absent. -/
def cutAt (c : Char) : List Char → List Char × List Char
  | [] => ([], [])
  | x :: xs =>
    if x = c then ([], xs)
    else
      let p := cutAt c xs
      (x :: p.1, p.2)

/-! ## 64-bit integer model (`strconv.Atoi`, Go `int` arithmetic) -/

/-- Largest value of Go's `int` (64-bit platforms). -/
def maxI64 : Int := 9223372036854775807

/-- Smallest value of Go's `int`. -/
def minI64 : Int := -9223372036854775808

/-- Two's-complement wrap-around of an `Int` into the `int64` range,
modelling Go's overflowing multiplication. -/
def i64wrap (x : Int) : Int := (x + 2 ^ 63) % 2 ^ 64 - 2 ^ 63

/-- Model of `strconv.Atoi`: optional single sign, then decimal digits;
errors (`none`) on empty input, stray characters, and values outside the
`int64` range (`strconv.ErrRange`). -/
def goAtoi (s : String) : Option Int :=
  let cs := s.data
  let neg : Bool := cs.head? = some '-'
  let ds := if cs.head? = some '-' ∨ cs.head? = some '+' then cs.tail else cs
  if ds = [] ∨ ¬ ds.all isDigitChar then none
  else
    let v : Int := if neg then -(digitsVal ds : Int) else (digitsVal ds : Int)
    if v < minI64 ∨ maxI64 < v then none else some v

/-! ## Unit parsers (`parseSizeString`, `parseDurationString`) -/

/-- Errors of the size/day unit parsers: a string that the anchored regex
rejects, a digit string outside the `int64` range (`strconv.ErrRange`
surfaced through `Atoi`), or the source's unreachable default branch. -/
inductive UnitErr where
  | invalidFormat (s : String)
  | outOfRange
  | unknownUnit (u : String)
deriving DecidableEq, Repr

/-- Deterministic equivalent of matching `reSize` = `^(\d+)(m|mb|g|gb)?$`
against `t`: the capture groups are the maximal leading digit run and the
remaining unit, accepted only when the unit is one of the five
alternatives (the regex is anchored on both sides). -/
def sizeMatch (t : List Char) : Option (List Char × List Char) :=
  let ds := t.takeWhile isDigitChar
  let rest := t.dropWhile isDigitChar
  if ds = [] then none
  else if rest = [] ∨ rest = ['m'] ∨ rest = ['m', 'b'] ∨ rest = ['g'] ∨ rest = ['g', 'b'] then
    some (ds, rest)
  else none

/-- Model of `parseSizeString`: lowercase the trimmed input, match
`reSize`, `Atoi` the digits, then scale by the unit. The `g`/`gb` branch
multiplies in Go `int` arithmetic, hence the `i64wrap`. -/
def parseSizeString (s : String) : Except UnitErr Int :=
  let t := (goTrimSpace s.data).map asciiLower
  match sizeMatch t with
  | none => .error (.invalidFormat s)
  | some (ds, unit) =>
    match goAtoi (String.mk ds) with
    | none => .error .outOfRange
    | some num =>
      if unit = [] ∨ unit = ['m'] ∨ unit = ['m', 'b'] then .ok num
      else if unit = ['g'] ∨ unit = ['g', 'b'] then .ok (i64wrap (num * 1024))
      else .error (.unknownUnit (String.mk unit))

/-- Deterministic equivalent of matching `reDays` = `^(\d+)(d|day|days)?$`. -/
def dayMatch (t : List Char) : Option (List Char × List Char) :=
  let ds := t.takeWhile isDigitChar
  let rest := t.dropWhile isDigitChar
  if ds = [] then none
  else if rest = [] ∨ rest = ['d'] ∨ rest = ['d', 'a', 'y'] ∨ rest = ['d', 'a', 'y', 's'] then
    some (ds, rest)
  else none

/-- Model of `parseDurationString` (day counts for `max-age`). -/
def parseDurationString (s : String) : Except UnitErr Int :=
  let t := (goTrimSpace s.data).map asciiLower
  match dayMatch t with
  | none => .error (.invalidFormat s)
  | some (ds, _unit) =>
    match goAtoi (String.mk ds) with
    | none => .error .outOfRange
    | some num => .ok num

/-! ## Model of `time.ParseDuration`

Faithful to Go's grammar `[-+]?([0-9]*(\.[0-9]*)?unit)+` with units
ns/us/µs/μs/ms/s/m/h, on inputs whose value does not overflow `int64`
(the repository's timeouts are small literals such as `5s`); fractional
parts use exact integer truncation where Go uses `float64`. -/

/-- Nanoseconds per duration unit, Go's `unitMap`. -/
def durUnitVal (u : List Char) : Option Int :=
  if u = ['n', 's'] then some 1
  else if u = ['u', 's'] ∨ u = ['µ', 's'] ∨ u = ['μ', 's'] then some 1000
  else if u = ['m', 's'] then some 1000000
  else if u = ['s'] then some 1000000000
  else if u = ['m'] then some 60000000000
  else if u = ['h'] then some 3600000000000
  else none

/-- One pass of Go `ParseDuration`'s main loop per fuel unit: leading
digits, optional fraction, then the longest run of non-digit non-dot
characters as the unit. Each iteration consumes at least one character,
so `length + 1` fuel always suffices. -/
def goParseDurationAux : Nat → List Char → Int → Option Int
  | 0, _, _ => none
  | fuel + 1, l, acc =>
    if l = [] then some acc
    else
      let ip := l.takeWhile isDigitChar
      let r1 := l.dropWhile isDigitChar
      let hasDot : Bool := r1.head? = some '.'
      let t := if hasDot then r1.tail else r1
      let fr := if hasDot then t.takeWhile isDigitChar else []
      let r2 := if hasDot then t.dropWhile isDigitChar else r1
      if ip = [] ∧ (hasDot = false ∨ fr = []) then none
      else
        let u := r2.takeWhile fun c => ¬ (c = '.' ∨ isDigitChar c)
        let r3 := r2.dropWhile fun c => ¬ (c = '.' ∨ isDigitChar c)
        if u = [] then none
        else
          match durUnitVal u with
          | none => none
          | some unitv =>
            let v : Int :=
              (digitsVal ip : Int) * unitv + (digitsVal fr : Int) * unitv / (10 : Int) ^ fr.length
            goParseDurationAux fuel r3 (acc + v)

/-- Model of `time.ParseDuration`, returning nanoseconds. -/
def goParseDuration (s : String) : Option Int :=
  let cs := s.data
  let neg : Bool := cs.head? = some '-'
  let cs1 := if cs.head? = some '-' ∨ cs.head? = some '+' then cs.tail else cs
  if cs1 = ['0'] then some 0
  else if cs1 = [] then none
  else (goParseDurationAux (cs1.length + 1) cs1 0).map fun d => if neg then -d else d

/-! ## Model of `zapcore.ParseLevel` -/

/-- Zap levels as their numeric values: debug = -1, info = 0, warn = 1,
error = 2, dpanic = 3, fatal = 5 (and 4 for the level between dpanic and
fatal). -/
def zapParseLevel (s : String) : Option Int :=
  if s = "debug" ∨ s = "DEBUG" then some (-1)
  else if s = "info" ∨ s = "INFO" ∨ s = "" then some 0
  else if s = "warn" ∨ s = "WARN" then some 1
  else if s = "error" ∨ s = "ERROR" then some 2
  else if s = "dpanic" ∨ s = "DPANIC" then some 3
  else if s = "fatal" ∨ s = "FATAL" then some 5
  else if s = "panic" ∨ s = "PANIC" then some 4
  else none

/-! ## Model of `net/url` (`url.Parse`, `url.URL.String`, `url.Values`)

Restricted to the DSN domain of this repository: no fragments beyond a
plain `#` cut, no userinfo (`@`), no percent-escapes, hosts with at most
a numeric port. On this domain the model follows `net/url`'s parse
exactly: scheme extraction (`getScheme`), query split at the first `?`,
opaque detection, and authority/path split. -/

structure GoURL where
  scheme : String
  /-- `url.URL.Opaque` (non-empty for `scheme:data` forms). -/
  opq : String
  host : String
  path : String
  rawQuery : String
deriving DecidableEq, Repr

/-- The loop body of `net/url.getScheme`: `acc` holds the characters read
so far (so `acc = []` is Go's `i == 0` test). `none` models the
`missing protocol scheme` error; `some ([], orig)` the no-scheme cases. -/
def gsAux (orig : List Char) : List Char → List Char → Option (List Char × List Char)
  | _, [] => some ([], orig)
  | acc, c :: cs =>
    if ('a' ≤ c ∧ c ≤ 'z') ∨ ('A' ≤ c ∧ c ≤ 'Z') then gsAux orig (acc ++ [c]) cs
    else if ('0' ≤ c ∧ c ≤ '9') ∨ c = '+' ∨ c = '-' ∨ c = '.' then
      if acc = [] then some ([], orig) else gsAux orig (acc ++ [c]) cs
    else if c = ':' then
      if acc = [] then none else some (acc, cs)
    else some ([], orig)

/-- Model of `net/url.getScheme`. -/
def getScheme (l : List Char) : Option (List Char × List Char) := gsAux l [] l

/-- Model of `url.Parse` on the DSN domain (see section comment). -/
def goURLParse (s : String) : Option GoURL :=
  let cs := (cutAt '#' s.data).1
  match getScheme cs with
  | none => none
  | some (sch, rest) =>
    let scheme := sch.map asciiLower
    let rest2 := (cutAt '?' rest).1
    let rawQ := (cutAt '?' rest).2
    if rest2.head? ≠ some '/' then
      if scheme ≠ [] then some ⟨String.mk scheme, String.mk rest2, "", "", String.mk rawQ⟩
      else if ':' ∈ (cutAt '/' rest2).1 then none
      else some ⟨"", "", "", String.mk rest2, String.mk rawQ⟩
    else if (scheme ≠ [] ∨ ¬ rest2.take 3 = ['/', '/', '/']) ∧ rest2.take 2 = ['/', '/'] then
      let after := rest2.drop 2
      let i := after.findIdx (· = '/')
      some ⟨String.mk scheme, "", String.mk (after.take i), String.mk (after.drop i),
        String.mk rawQ⟩
    else some ⟨String.mk scheme, "", "", String.mk rest2, String.mk rawQ⟩

/-- Model of `url.URL.String` for a freshly built `url.URL{Scheme, Host,
Path}` literal (as `parseHTTPOptions` builds its `baseURL`): scheme,
colon, `//` when a host or path is present, host, then the path (with the
leading-slash fixup; escaping is the identity on the DSN domain). -/
def urlStringSHP (scheme host path : String) : String :=
  scheme ++ ":" ++ (if host ≠ "" ∨ path ≠ "" then "//" else "") ++ host ++
    (if path ≠ "" ∧ path.data.head? ≠ some '/' ∧ host ≠ "" then "/" else "") ++ path

/-- The loop of `url.ParseQuery`: split the raw query on `&`, skip empty
segments and segments containing `;`, and cut each at its first `=`
(`url.URL.Query()` ignores the `;` error). One fuel unit per segment. -/
def parseQueryAux : Nat → List Char → List (List Char × List Char)
  | 0, _ => []
  | _, [] => []
  | fuel + 1, l =>
    let seg := (cutAt '&' l).1
    let rest := (cutAt '&' l).2
    let tail := parseQueryAux fuel rest
    if seg = [] ∨ ';' ∈ seg then tail else cutAt '=' seg :: tail

/-- Key/value pairs of a raw query, in segment order. -/
def parseQueryPairs (raw : String) : List (List Char × List Char) :=
  parseQueryAux (raw.data.length + 1) raw.data

/-- Model of `u.Query().Get(key)`: first value bound to `key`, or `""`. -/
def queryGet (raw key : String) : String :=
  match (parseQueryPairs raw).find? (fun p => p.1 = key.data) with
  | some p => String.mk p.2
  | none => ""

/-! ## DSN option records and parsers (`parseFileOptions`, `parseHTTPOptions`) -/

/-- `FileOptions`, field for field as in the source (sizes and counts are
Go `int`; `Level` a zap level; `Timeout` lives only in `HTTPOptions`). -/
structure FileOptions where
  Path : String
  Compress : String
  MaxSize : Int
  MaxBackups : Int
  MaxAge : Int
  Level : Int
deriving DecidableEq, Repr

/-- `HTTPOptions` as in the source; `Timeout` is a `time.Duration` in
nanoseconds. -/
structure HTTPOptions where
  URL : String
  Timeout : Int
  BufferSize : Int
  BatchSize : Int
  MaxRetries : Int
  Level : Int
deriving DecidableEq, Repr

/-- The error cases of the two DSN parsers, one per wrapped `fmt.Errorf`. -/
inductive DSNErr where
  | invalidDSN
  | invalidScheme (s : String)
  | invalidMaxSize (e : UnitErr)
  | invalidMaxBackups
  | invalidMaxAge (e : UnitErr)
  | invalidCompress (v : String)
  | invalidLevel (v : String)
  | invalidTimeout (v : String)
  | invalidBufferSize
  | invalidBatchSize
  | invalidMaxRetries
deriving DecidableEq, Repr

/-- The `max-size` step of `parseFileOptions`: an empty (or absent) query
value leaves the field untouched, anything else must parse. -/
def setFileMaxSize (q : String) (o : FileOptions) : Except DSNErr FileOptions :=
  let v := queryGet q "max-size"
  if v = "" then .ok o
  else
    match parseSizeString v with
    | .error e => .error (.invalidMaxSize e)
    | .ok size => .ok { o with MaxSize := size }

/-- The `max-backups` step of `parseFileOptions` (`strconv.Atoi`). -/
def setFileMaxBackups (q : String) (o : FileOptions) : Except DSNErr FileOptions :=
  let v := queryGet q "max-backups"
  if v = "" then .ok o
  else
    match goAtoi v with
    | none => .error .invalidMaxBackups
    | some n => .ok { o with MaxBackups := n }

/-- The `max-age` step of `parseFileOptions` (day-unit parser). -/
def setFileMaxAge (q : String) (o : FileOptions) : Except DSNErr FileOptions :=
  let v := queryGet q "max-age"
  if v = "" then .ok o
  else
    match parseDurationString v with
    | .error e => .error (.invalidMaxAge e)
    | .ok age => .ok { o with MaxAge := age }

/-- The `compress` step of `parseFileOptions`: only the literals `gzip`
and `none` are accepted. -/
def setFileCompress (q : String) (o : FileOptions) : Except DSNErr FileOptions :=
  let v := queryGet q "compress"
  if v = "" then .ok o
  else if v ≠ "gzip" ∧ v ≠ "none" then .error (.invalidCompress v)
  else .ok { o with Compress := v }

/-- The `level` step of `parseFileOptions` (`zapcore.ParseLevel`). -/
def setFileLevel (q : String) (o : FileOptions) : Except DSNErr FileOptions :=
  let v := queryGet q "level"
  if v = "" then .ok o
  else
    match zapParseLevel v with
    | none => .error (.invalidLevel v)
    | some lvl => .ok { o with Level := lvl }

/-- The five query steps of `parseFileOptions`, in source order. -/
def applyFileQuery (q : String) (o : FileOptions) : Except DSNErr FileOptions :=
  (setFileMaxSize q o).bind fun o1 =>
    (setFileMaxBackups q o1).bind fun o2 =>
      (setFileMaxAge q o2).bind fun o3 =>
        (setFileCompress q o3).bind fun o4 => setFileLevel q o4

/-- Model of `parseFileOptions`: `url.Parse`, scheme check, defaults
(100 MB, 10 backups, 30 days, no compression, info), then the query
overrides. -/
def parseFileOptions (dsn : String) : Except DSNErr FileOptions :=
  match goURLParse dsn with
  | none => .error .invalidDSN
  | some u =>
    if u.scheme ≠ "file" then .error (.invalidScheme u.scheme)
    else applyFileQuery u.rawQuery ⟨u.path, "none", 100, 10, 30, 0⟩

/-- The `timeout` step of `parseHTTPOptions` (`time.ParseDuration`). -/
def setHTTPTimeout (q : String) (o : HTTPOptions) : Except DSNErr HTTPOptions :=
  let v := queryGet q "timeout"
  if v = "" then .ok o
  else
    match goParseDuration v with
    | none => .error (.invalidTimeout v)
    | some t => .ok { o with Timeout := t }

/-- The `buffer-size` step of `parseHTTPOptions`. -/
def setHTTPBufferSize (q : String) (o : HTTPOptions) : Except DSNErr HTTPOptions :=
  let v := queryGet q "buffer-size"
  if v = "" then .ok o
  else
    match goAtoi v with
    | none => .error .invalidBufferSize
    | some n => .ok { o with BufferSize := n }

/-- The `batch-size` step of `parseHTTPOptions`. -/
def setHTTPBatchSize (q : String) (o : HTTPOptions) : Except DSNErr HTTPOptions :=
  let v := queryGet q "batch-size"
  if v = "" then .ok o
  else
    match goAtoi v with
    | none => .error .invalidBatchSize
    | some n => .ok { o with BatchSize := n }

/-- The `max-retries` step of `parseHTTPOptions`. -/
def setHTTPMaxRetries (q : String) (o : HTTPOptions) : Except DSNErr HTTPOptions :=
  let v := queryGet q "max-retries"
  if v = "" then .ok o
  else
    match goAtoi v with
    | none => .error .invalidMaxRetries
    | some n => .ok { o with MaxRetries := n }

/-- The `level` step of `parseHTTPOptions`. -/
def setHTTPLevel (q : String) (o : HTTPOptions) : Except DSNErr HTTPOptions :=
  let v := queryGet q "level"
  if v = "" then .ok o
  else
    match zapParseLevel v with
    | none => .error (.invalidLevel v)
    | some lvl => .ok { o with Level := lvl }

/-- The five query steps of `parseHTTPOptions`, in source order. -/
def applyHTTPQuery (q : String) (o : HTTPOptions) : Except DSNErr HTTPOptions :=
  (setHTTPTimeout q o).bind fun o1 =>
    (setHTTPBufferSize q o1).bind fun o2 =>
      (setHTTPBatchSize q o2).bind fun o3 =>
        (setHTTPMaxRetries q o3).bind fun o4 => setHTTPLevel q o4

/-- Model of `parseHTTPOptions`: `url.Parse`, scheme check, the base URL
rebuilt from `url.URL{Scheme, Host, Path}` only, defaults (10s, 1024,
100, 3, info), then the query overrides. -/
def parseHTTPOptions (dsn : String) : Except DSNErr HTTPOptions :=
  match goURLParse dsn with
  | none => .error .invalidDSN
  | some u =>
    if u.scheme ≠ "http" ∧ u.scheme ≠ "https" then .error (.invalidScheme u.scheme)
    else
      applyHTTPQuery u.rawQuery
        ⟨urlStringSHP u.scheme u.host u.path, 10000000000, 1024, 100, 3, 0⟩

/-! ## HTTP batch writer (`writer-http.go`)

The network is abstracted by a response oracle `resp : Nat → HTTPResp`
giving the outcome `client.Do` would produce for attempt `i` if the
request proceeds, and the writer's context by a `ctxDone` flag: `post`
builds its request context with `context.WithTimeout(w.ctx, 10s)`, so
once `w.ctx` is cancelled every `client.Do` fails immediately. -/

/-- Outcome of `client.Do` when the request context is live. -/
inductive HTTPResp where
  | netFail
  | status (code : Nat)
deriving DecidableEq, Repr

/-- The error cases of `HTTPWriter.post`. -/
inductive PostErr where
  | canceled
  | sendFailed
  | httpStatus (code : Nat)
deriving DecidableEq, Repr

/-- Model of `HTTPWriter.post`'s outcome: a cancelled writer context
fails the request outright; otherwise a transport error fails it, and a
response is a failure exactly when its status is `>= 400` (the body is
read and discarded either way). `none` is success. -/
def post (ctxDone : Bool) (r : HTTPResp) : Option PostErr :=
  if ctxDone then some .canceled
  else
    match r with
    | .netFail => some .sendFailed
    | .status code => if 400 ≤ code then some (.httpStatus code) else none

/-- The HTTP request `post` sends, as built by `http.NewRequestWithContext`
plus the `Content-Type` header set in the source. -/
structure RequestM where
  method : String
  url : String
  contentType : String
  body : List Nat
deriving DecidableEq, Repr

/-- `buildPostRequest url data`: the request `post` issues for payload
`data`. -/
def buildPostRequest (url : String) (data : List Nat) : RequestM :=
  ⟨"POST", url, "application/json", data⟩

/-- Observable trace of `sendBatch`'s retry loop: number of `post` calls,
the seconds slept after each failed attempt (in order), whether the loop
returned nil, and the last error seen. -/
structure SendTrace where
  attempts : Nat
  sleeps : List Nat
  success : Bool
  lastErr : Option PostErr
deriving DecidableEq, Repr

/-- The retry loop `for i := 0; i <= maxRetries; i++` of `sendBatch`,
with `fuel` the remaining iterations and `i` the current attempt index:
a failed attempt records the `time.Sleep((i+1) * time.Second)` and
continues; a successful `post` returns nil at once; an exhausted loop
returns the wrapped last error. -/
def sendAttempts (ctxDone : Bool) (resp : Nat → HTTPResp) : Nat → Nat → Option PostErr →
    SendTrace
  | _, 0, last => ⟨0, [], false, last⟩
  | i, fuel + 1, _ =>
    match post ctxDone (resp i) with
    | none => ⟨1, [], true, none⟩
    | some e =>
      let t := sendAttempts ctxDone resp (i + 1) fuel (some e)
      ⟨t.attempts + 1, (i + 1) :: t.sleeps, t.success, t.lastErr⟩

/-- The payload-building loop of `sendBatch`: `WriteByte('[')`, then for
each record a comma when `i > 0` followed by its `bytes.TrimSpace`d
bytes, then `WriteByte(']')`. `sendBuf i` is the loop from index `i`. -/
def sendBuf : Nat → List (List Nat) → List Nat
  | _, [] => []
  | i, d :: rest => (if 0 < i then [44] else []) ++ goBytesTrimSpace d ++ sendBuf (i + 1) rest

/-- The bytes `sendBatch` accumulates for a batch: `[` body `]`. -/
def sendPayload (batch : List (List Nat)) : List Nat := 91 :: sendBuf 0 batch ++ [93]

/-- Join a list of byte strings with comma (byte 44) separators — the
declarative "JSON array of pre-encoded records" shape. -/
def joinComma : List (List Nat) → List Nat
  | [] => []
  | [d] => d
  | d :: rest => d ++ 44 :: joinComma rest

/-- Model of `HTTPWriter.sendBatch`: an empty batch returns nil without
building a payload or posting; otherwise the payload is built once and
the retry loop runs with `maxRetries + 1` iterations (Go `int`, hence the
`toNat` of a possibly negative bound). Returns the loop trace and the
payload sent. -/
def sendBatch (ctxDone : Bool) (resp : Nat → HTTPResp) (maxRetries : Int)
    (batch : List (List Nat)) : SendTrace × Option (List Nat) :=
  if batch = [] then (⟨0, [], true, none⟩, none)
  else (sendAttempts ctxDone resp 0 (maxRetries + 1).toNat none, some (sendPayload batch))

/-- The worker's final flush on shutdown (the `ctx.Done()` and
channel-closed arms of `worker`): `Close` runs `w.cancel()` before
`close(w.buffer)`, so by the time this flush happens the writer context
is already cancelled — the flush runs with `ctxDone = true`. The worker
ignores the returned error, discarding the batch. -/
def workerFinalFlush (resp : Nat → HTTPResp) (maxRetries : Int)
    (batch : List (List Nat)) : SendTrace :=
  (sendBatch true resp maxRetries batch).1

/-- The state of an `HTTPWriter` visible to `Write`: the records queued
in the buffered channel and its capacity (`opts.BufferSize`), plus the
construction-time configuration. -/
structure HTTPWriter where
  url : String
  batchSize : Int
  maxRetries : Int
  bufferCap : Nat
  buffer : List (List Nat)
deriving DecidableEq, Repr

/-- `Write`'s only error: the buffer-full drop. -/
inductive WriteErr where
  | bufferFull
deriving DecidableEq, Repr

/-- The `data := make(...); copy(data, p)` step of `Write`: a structural
copy of the input bytes (the queued value shares nothing with `p`). -/
def copyBytes : List Nat → List Nat
  | [] => []
  | b :: rest => b :: copyBytes rest

/-- Model of `HTTPWriter.Write`: copy the input, then a non-blocking
channel send — it enqueues when the buffer has room and otherwise drops
the record and reports `BufferFull`; both branches report `len(p)` bytes
written and neither suspends (the model is a total function on the
queue state). -/
def HTTPWriter.Write (w : HTTPWriter) (p : List Nat) : (Nat × Option WriteErr) × HTTPWriter :=
  let data := copyBytes p
  if w.buffer.length < w.bufferCap then
    ((p.length, none), { w with buffer := w.buffer ++ [data] })
  else ((p.length, some .bufferFull), w)

/-! ## Adaptor factory and Logger facade (`log.go`) -/

/-- A constructed `zapcore.Core`: the default console core on stdout, or
an adaptor core for one sink, each carrying its enabler level. -/
inductive CoreM where
  | console (lvl : Int)
  | fileCore (opts : FileOptions) (lvl : Int)
  | httpCore (opts : HTTPOptions) (lvl : Int)
deriving DecidableEq, Repr

/-- The `io.Closer` returned alongside a core. -/
inductive CloserM where
  | fileCloser (opts : FileOptions)
  | httpCloser (opts : HTTPOptions)
deriving DecidableEq, Repr

/-- Errors of `createAdaptorCore` and the writer constructors. -/
inductive AdaptorErr where
  | invalidDSN
  | dsnErr (e : DSNErr)
  | filePathEmpty
  | mkdirFailed
  | httpURLEmpty
  | unsupportedScheme (s : String)
deriving DecidableEq, Repr

/-- Model of `newFileWriter` (writer-file.go): empty path is an error,
then `os.MkdirAll(filepath.Dir(path))` must succeed — the filesystem is
abstracted by the oracle `mkdirOK` applied to the sink path — and the
lumberjack-backed writer doubles as the closer. -/
def newFileWriter (mkdirOK : String → Bool) (opts : FileOptions) : Except AdaptorErr CloserM :=
  if opts.Path = "" then .error .filePathEmpty
  else if ¬ mkdirOK opts.Path then .error .mkdirFailed
  else .ok (.fileCloser opts)

/-- Model of `newHTTPWriter`'s fallible part: only an empty URL fails;
the writer is its own closer. -/
def newHTTPWriter (opts : HTTPOptions) : Except AdaptorErr CloserM :=
  if opts.URL = "" then .error .httpURLEmpty else .ok (.httpCloser opts)

/-- Model of `createAdaptorCore` (log.go): `url.Parse` the DSN, then
switch on the parsed scheme — `file` builds the rotating-file sink from
`parseFileOptions`, `http`/`https` build the batching HTTP sink from
`parseHTTPOptions`, anything else is `unsupported scheme` and no sink is
constructed. -/
def createAdaptorCore (mkdirOK : String → Bool) (dsn : String) (lvl : Int) :
    Except AdaptorErr (CoreM × CloserM) :=
  match goURLParse dsn with
  | none => .error .invalidDSN
  | some u =>
    if u.scheme = "file" then
      match parseFileOptions dsn with
      | .error e => .error (.dsnErr e)
      | .ok opts =>
        match newFileWriter mkdirOK opts with
        | .error e => .error e
        | .ok closer => .ok (.fileCore opts lvl, closer)
    else if u.scheme = "http" ∨ u.scheme = "https" then
      match parseHTTPOptions dsn with
      | .error e => .error (.dsnErr e)
      | .ok opts =>
        match newHTTPWriter opts with
        | .error e => .error e
        | .ok closer => .ok (.httpCore opts lvl, closer)
    else .error (.unsupportedScheme u.scheme)

/-- The `Config` struct (config.go). -/
structure GoConfig where
  Level : String
  Adaptors : List String
  IsDev : Bool
  Skip : Int
deriving DecidableEq, Repr

/-- Errors of `NewWithConfig`. -/
inductive NewErr where
  | invalidLevel (s : String)
  | noAdaptorsCreated
deriving DecidableEq, Repr

/-- The `Logger` value `NewWithConfig` returns: the teed cores and the
collected closers. -/
structure LoggerM where
  cores : List CoreM
  closers : List CloserM
deriving DecidableEq, Repr

/-- Model of `NewWithConfig` (log.go): resolve the level (empty means
info), seed `cores` with the default stdout console core, then for each
adaptor DSN either append its core and closer or skip it on error; inside
the non-empty-adaptors block, `len(cores) == 0` fails with
`no adaptors created`. -/
def NewWithConfig (mkdirOK : String → Bool) (cfg : GoConfig) : Except NewErr LoggerM :=
  let lvlE : Except NewErr Int :=
    if cfg.Level = "" then .ok 0
    else
      match zapParseLevel cfg.Level with
      | none => .error (.invalidLevel cfg.Level)
      | some l => .ok l
  match lvlE with
  | .error e => .error e
  | .ok lvl =>
    let res := cfg.Adaptors.foldl
      (fun (acc : List CoreM × List CloserM) dsn =>
        match createAdaptorCore mkdirOK dsn lvl with
        | .error _ => acc
        | .ok (core, closer) => (acc.1 ++ [core], acc.2 ++ [closer]))
      ([CoreM.console lvl], [])
    if 0 < cfg.Adaptors.length ∧ res.1.length = 0 then .error .noAdaptorsCreated
    else .ok ⟨res.1, res.2⟩

/-- One registered closer and the error its `Close()` returns, for
observing `Logger.Close`'s iteration: `id` identifies the closer, in
registration order. -/
structure CloserSpec where
  id : Nat
  result : Option String
deriving DecidableEq, Repr

/-- Model of `Logger.Close`: call every closer in order, remember the
first non-nil error, return it (the `match` is the source's
`err != nil && firstErr == nil` update). The second component is the
trace of closers invoked, in order. -/
def LoggerClose (closers : List CloserSpec) : Option String × List Nat :=
  closers.foldl
    (fun acc c =>
      (match acc.1 with
       | some e => some e
       | none => c.result,
       acc.2 ++ [c.id]))
    (none, [])

/-! ## Helper lemmas -/

/-- `copyBytes` is the identity on values: the queued record equals the
written bytes. -/
theorem copyBytes_eq (p : List Nat) : copyBytes p = p := by
  induction p with
  | nil => rfl
  | cons b rest ih => simp [copyBytes, ih]

/-! ## Claim theorems -/

/-- C1: the claim says a non-empty adaptor list in which every DSN fails
construction makes `NewWithConfig` fail with `no adaptors created`. The
code disagrees: `cores` is seeded with the default stdout console core
before the adaptor loop, so the `len(cores) == 0` guard can never fire
and a logger (with only the console core) is returned. Evaluated at a
configuration whose single DSN has an unsupported scheme (so the one
adaptor fails), `NewWithConfig` returns `ok`, not the
`NoAdaptorsConstructed` error. -/
theorem newWithConfig_allFail_returns_logger :
    createAdaptorCore (fun _ => true) "bogus://x" 0 =
      .error (.unsupportedScheme "bogus") ∧
    NewWithConfig (fun _ => true) ⟨"info", ["bogus://x"], false, 0⟩ =
      .ok ⟨[CoreM.console 0], []⟩ := by
  constructor
  · rfl
  · rfl

/-- C3: the claim (and the source's own comment on `Close`) says `Close`
waits until the worker has flushed the pending partial batch, so every
accepted record is flushed. The code disagrees: `Close` runs `w.cancel()`
before `close(w.buffer)`, and `post` builds each request context from the
already-cancelled `w.ctx`, so the worker's final flush cannot succeed.
Evaluated with one pending record and a healthy collector that would
answer 200: the final flush makes all `maxRetries + 1 = 4` attempts,
each failing with the cancelled context (sleeping 1+2+3+4 seconds), and
returns an error — the worker discards the record. -/
theorem close_final_flush_fails_eval :
    workerFinalFlush (fun _ => .status 200) 3 [[123, 125]] =
      ⟨4, [1, 2, 3, 4], false, some .canceled⟩ := by
  decide

/-- C5: `Write` copies its input (the queued value equals `p` but shares
no structure with it), always reports `len(p)` bytes written, enqueues
the copy with a nil error when the buffer has room, and drops the record
with a `BufferFull` error — leaving the writer unchanged — when it is
full; the model is a total function, reflecting the non-blocking select. -/
theorem httpWrite_spec (w : HTTPWriter) (p : List Nat) :
    copyBytes p = p ∧
    (HTTPWriter.Write w p).1.1 = p.length ∧
    (w.buffer.length < w.bufferCap →
      (HTTPWriter.Write w p).1.2 = none ∧
      (HTTPWriter.Write w p).2.buffer = w.buffer ++ [p]) ∧
    (w.bufferCap ≤ w.buffer.length →
      (HTTPWriter.Write w p).1.2 = some .bufferFull ∧
      (HTTPWriter.Write w p).2 = w) := by
  refine ⟨copyBytes_eq p, ?_, ?_, ?_⟩
  · by_cases h : w.buffer.length < w.bufferCap <;> simp [HTTPWriter.Write, h]
  · intro h
    simp [HTTPWriter.Write, h, copyBytes_eq]
  · intro h
    have h2 : ¬ w.buffer.length < w.bufferCap := by omega
    simp [HTTPWriter.Write, h2]

/-- C5 witness: a writer with capacity 1 and an empty queue accepts the
two-byte record `[9, 9]`, reporting 2 bytes written with a nil error and
queueing exactly that record. -/
theorem httpWrite_spec_witness :
    (HTTPWriter.Write ⟨"u", 100, 3, 1, []⟩ [9, 9]).1.2 = none ∧
    (HTTPWriter.Write ⟨"u", 100, 3, 1, []⟩ [9, 9]).2.buffer =
      ([] : List (List Nat)) ++ [[9, 9]] :=
  (httpWrite_spec ⟨"u", 100, 3, 1, []⟩ [9, 9]).2.2.1 (by decide)

/-- C10: `Logger.Close` invokes every registered closer, in registration
order (the trace lists every id in order, even after an error), and
returns the first error encountered — `none` when all succeed or there
are no closers (the head of the list of non-nil errors). -/
theorem loggerClose_spec (cs : List CloserSpec) :
    (LoggerClose cs).2 = cs.map (·.id) ∧
    (LoggerClose cs).1 = (cs.filterMap (·.result)).head? := by
  have aux : ∀ (l : List CloserSpec) (e : Option String) (tr : List Nat),
      l.foldl
        (fun acc c =>
          (match acc.1 with
           | some x => some x
           | none => c.result,
           acc.2 ++ [c.id]))
        (e, tr) =
      ((match e with
        | some x => some x
        | none => (l.filterMap (·.result)).head?), tr ++ l.map (·.id)) := by
    intro l
    induction l with
    | nil => intro e tr; cases e <;> simp
    | cons c rest ih =>
      intro e tr
      simp only [List.foldl_cons, List.map_cons, List.filterMap_cons]
      cases e with
      | some x => rw [ih]; simp
      | none =>
        cases hr : c.result with
        | some y => rw [ih]; simp [hr]
        | none => rw [ih]; simp [hr]
  unfold LoggerClose
  rw [aux]
  simp

/-- C7 counterexample: the claim says that for digits `N` with unit `g`,
`parseSize` returns `N * 1024`. At `N = 10^16` the Go `int`
multiplication overflows: the source returns the wrapped value
-8206744073709551616, not `10^16 * 1024`. -/
theorem parseSizeString_overflow_cex :
    parseSizeString "10000000000000000g" = .ok (-8206744073709551616) ∧
    (-8206744073709551616 : Int) ≠ 10000000000000000 * 1024 := by
  constructor
  · rfl
  · decide

/-- When every attempt fails, the retry loop runs through all its fuel:
`fuel` attempts, sleeping `i + 1` seconds after the `i`-th (zero-indexed)
attempt, and ends unsuccessfully. -/
theorem sendAttempts_allFail (resp : Nat → HTTPResp)
    (hfail : ∀ i, (post false (resp i)).isSome) :
    ∀ (fuel i : Nat) (last : Option PostErr),
      (sendAttempts false resp i fuel last).attempts = fuel ∧
      (sendAttempts false resp i fuel last).sleeps = List.range' (i + 1) fuel ∧
      (sendAttempts false resp i fuel last).success = false := by
  intro fuel
  induction fuel with
  | zero => intro i last; simp [sendAttempts]
  | succ fuel ih =>
    intro i last
    obtain ⟨e, he⟩ := Option.isSome_iff_exists.mp (hfail i)
    have := ih (i + 1) (some e)
    simp only [sendAttempts, he]
    refine ⟨by simp [this.1], ?_, by simp [this.2.2]⟩
    rw [List.range'_succ]
    simp [this.2.1]

/-- C4: for a non-empty batch whose every POST attempt fails, `sendBatch`
makes exactly `maxRetries + 1` POST attempts, the sleep after the `i`-th
(zero-indexed) attempt is `i + 1` seconds — so the delays between
attempts are 1s, 2s, 3s, …, strictly increasing — an HTTP status `>= 400`
is exactly what makes an attempt fail, and after exhausting the attempts
`sendBatch` returns an error (the worker then drops the batch). -/
theorem sendBatch_retry_policy (resp : Nat → HTTPResp) (mr : Nat)
    (batch : List (List Nat)) (hb : batch ≠ [])
    (hfail : ∀ i, (post false (resp i)).isSome) :
    (sendBatch false resp (mr : Int) batch).1.attempts = mr + 1 ∧
    (sendBatch false resp (mr : Int) batch).1.sleeps = List.range' 1 (mr + 1) ∧
    List.Pairwise (· < ·) (sendBatch false resp (mr : Int) batch).1.sleeps ∧
    (sendBatch false resp (mr : Int) batch).1.success = false ∧
    (∀ code, (post false (.status code)).isSome ↔ 400 ≤ code) := by
  have hfuel : ((mr : Int) + 1).toNat = mr + 1 := by omega
  have h := sendAttempts_allFail resp hfail (mr + 1) 0 none
  simp only [sendBatch, if_neg hb, hfuel] at *
  refine ⟨h.1, h.2.1, ?_, h.2.2, ?_⟩
  · rw [h.2.1]
    exact List.pairwise_lt_range' 1 (mr + 1)
  · intro code
    by_cases hc : 400 ≤ code <;> simp [post, hc]

/-- C4 witness: a one-record batch against a collector that always
answers 500, with `maxRetries = 2`: exactly 3 attempts, sleeps 1s, 2s,
3s, and an error result. -/
theorem sendBatch_retry_policy_witness :
    (sendBatch false (fun _ => HTTPResp.status 500) ((2 : Nat) : Int) [[65]]).1.attempts =
      2 + 1 ∧
    (sendBatch false (fun _ => HTTPResp.status 500) ((2 : Nat) : Int) [[65]]).1.sleeps =
      List.range' 1 (2 + 1) ∧
    List.Pairwise (· < ·)
      (sendBatch false (fun _ => HTTPResp.status 500) ((2 : Nat) : Int) [[65]]).1.sleeps ∧
    (sendBatch false (fun _ => HTTPResp.status 500) ((2 : Nat) : Int) [[65]]).1.success =
      false ∧
    (∀ code, (post false (.status code)).isSome ↔ 400 ≤ code) :=
  sendBatch_retry_policy (fun _ => .status 500) 2 [[65]] (by decide)
    (by intro i; show (post false (.status 500)).isSome; decide)

/-- The comma-writing loop from any positive index prefixes every record
with a comma. -/
theorem sendBuf_pos (rest : List (List Nat)) :
    ∀ i : Nat, sendBuf (i + 1) rest =
      rest.foldr (fun d acc => 44 :: (goBytesTrimSpace d ++ acc)) [] := by
  induction rest with
  | nil => intro i; rfl
  | cons d r ih =>
    intro i
    simp [sendBuf, ih (i + 1)]

/-- `joinComma` of a non-empty list is its head followed by the
comma-prefixed tail. -/
theorem joinComma_cons (x : List Nat) (m : List (List Nat)) :
    joinComma (x :: m) = x ++ m.foldr (fun d acc => 44 :: (d ++ acc)) [] := by
  induction m generalizing x with
  | nil => simp [joinComma]
  | cons y m' ih =>
    have h1 : joinComma (x :: y :: m') = x ++ 44 :: joinComma (y :: m') := rfl
    rw [h1, ih y]
    simp

/-- The imperative payload loop builds exactly the bracketed
comma-separated join of the trimmed records. -/
theorem sendPayload_eq (batch : List (List Nat)) :
    sendPayload batch = 91 :: (joinComma (batch.map goBytesTrimSpace) ++ [93]) := by
  cases batch with
  | nil => rfl
  | cons d rest =>
    simp only [sendPayload, sendBuf, List.map_cons]
    rw [joinComma_cons, sendBuf_pos rest 0, List.foldr_map]
    simp

/-- C8: for every non-empty batch, the flush payload is `[`, the
records' `bytes.TrimSpace`d encodings joined by commas in batch order,
then `]`; and the request posting it is a POST carrying exactly that
payload with header `Content-Type: application/json`. -/
theorem sendBatch_payload_spec (ctxDone : Bool) (resp : Nat → HTTPResp) (mr : Int)
    (batch : List (List Nat)) (hb : batch ≠ []) (url : String) :
    (sendBatch ctxDone resp mr batch).2 =
      some (91 :: (joinComma (batch.map goBytesTrimSpace) ++ [93])) ∧
    buildPostRequest url ((sendBatch ctxDone resp mr batch).2.getD []) =
      ⟨"POST", url, "application/json",
        91 :: (joinComma (batch.map goBytesTrimSpace) ++ [93])⟩ := by
  have hp := sendPayload_eq batch
  simp [sendBatch, hb, hp, buildPostRequest]

/-- C8 witness: the batch of records `" {}\n"` and `{"a":1}` (as bytes)
yields the payload `[{},{"a":1}]` in a POST with the JSON content type. -/
theorem sendBatch_payload_spec_witness :
    (sendBatch false (fun _ => HTTPResp.status 200) 3
        [[32, 123, 125, 10], [123, 34, 97, 34, 58, 49, 125]]).2 =
      some (91 :: (joinComma
        ([[32, 123, 125, 10], [123, 34, 97, 34, 58, 49, 125]].map goBytesTrimSpace) ++
          [93])) ∧
    buildPostRequest "http://h/p"
        ((sendBatch false (fun _ => HTTPResp.status 200) 3
          [[32, 123, 125, 10], [123, 34, 97, 34, 58, 49, 125]]).2.getD []) =
      ⟨"POST", "http://h/p", "application/json",
        91 :: (joinComma
          ([[32, 123, 125, 10], [123, 34, 97, 34, 58, 49, 125]].map goBytesTrimSpace) ++
            [93])⟩ :=
  sendBatch_payload_spec false (fun _ => .status 200) 3
    [[32, 123, 125, 10], [123, 34, 97, 34, 58, 49, 125]] (by decide) "http://h/p"

/-- The fragment before the first occurrence of `c` does not contain `c`. -/
theorem cutAt_fst_not_mem (c : Char) (l : List Char) : c ∉ (cutAt c l).1 := by
  induction l with
  | nil => simp [cutAt]
  | cons x xs ih =>
    by_cases hx : x = c
    · simp [cutAt, hx]
    · simp only [cutAt, if_neg hx, List.mem_cons]
      intro hmem
      rcases hmem with hc | hc
      · exact hx hc.symm
      · exact ih hc

/-- The host and path produced by `url.Parse` never contain `?`: both are
carved out of the part of the input before the first `?`. -/
theorem goURLParse_no_qmark (s : String) (u : GoURL) (h : goURLParse s = some u) :
    '?' ∉ u.host.data ∧ '?' ∉ u.path.data := by
  unfold goURLParse at h
  simp only [] at h
  cases hg : getScheme (cutAt '#' s.data).1 with
  | none => rw [hg] at h; simp at h
  | some p =>
    obtain ⟨sch, rest⟩ := p
    rw [hg] at h
    simp only at h
    have hq : '?' ∉ (cutAt '?' rest).1 := cutAt_fst_not_mem '?' rest
    split at h
    · split at h
      · cases h
        simp
      · split at h
        · simp at h
        · cases h
          refine ⟨by simp, ?_⟩
          exact hq
    · split at h
      · cases h
        constructor
        · intro hmem
          exact hq (List.drop_subset _ _ (List.take_subset _ _ hmem))
        · intro hmem
          exact hq (List.drop_subset _ _ (List.drop_subset _ _ hmem))
      · cases h
        exact ⟨by simp, hq⟩

/-- A base URL rebuilt from `?`-free components contains no `?`. -/
theorem urlStringSHP_no_qmark (scheme host path : String)
    (hs : '?' ∉ scheme.data) (hh : '?' ∉ host.data) (hp : '?' ∉ path.data) :
    '?' ∉ (urlStringSHP scheme host path).data := by
  intro hmem
  unfold urlStringSHP at hmem
  simp only [String.data_append, List.mem_append] at hmem
  rcases hmem with (((((hc | hc) | hc) | hc) | hc) | hc)
  · exact hs hc
  · exact absurd hc (by decide)
  · split at hc <;> exact absurd hc (by decide)
  · exact hh hc
  · split at hc <;> exact absurd hc (by decide)
  · exact hp hc

/-- `setHTTPTimeout` never changes the URL field. -/
theorem setHTTPTimeout_URL (q : String) (o o' : HTTPOptions)
    (h : setHTTPTimeout q o = .ok o') : o'.URL = o.URL := by
  unfold setHTTPTimeout at h
  simp only [] at h
  split at h
  · cases h; rfl
  · split at h
    · simp at h
    · cases h; rfl

/-- `setHTTPBufferSize` never changes the URL field. -/
theorem setHTTPBufferSize_URL (q : String) (o o' : HTTPOptions)
    (h : setHTTPBufferSize q o = .ok o') : o'.URL = o.URL := by
  unfold setHTTPBufferSize at h
  simp only [] at h
  split at h
  · cases h; rfl
  · split at h
    · simp at h
    · cases h; rfl

/-- `setHTTPBatchSize` never changes the URL field. -/
theorem setHTTPBatchSize_URL (q : String) (o o' : HTTPOptions)
    (h : setHTTPBatchSize q o = .ok o') : o'.URL = o.URL := by
  unfold setHTTPBatchSize at h
  simp only [] at h
  split at h
  · cases h; rfl
  · split at h
    · simp at h
    · cases h; rfl

/-- `setHTTPMaxRetries` never changes the URL field. -/
theorem setHTTPMaxRetries_URL (q : String) (o o' : HTTPOptions)
    (h : setHTTPMaxRetries q o = .ok o') : o'.URL = o.URL := by
  unfold setHTTPMaxRetries at h
  simp only [] at h
  split at h
  · cases h; rfl
  · split at h
    · simp at h
    · cases h; rfl

/-- `setHTTPLevel` never changes the URL field. -/
theorem setHTTPLevel_URL (q : String) (o o' : HTTPOptions)
    (h : setHTTPLevel q o = .ok o') : o'.URL = o.URL := by
  unfold setHTTPLevel at h
  simp only [] at h
  split at h
  · cases h; rfl
  · split at h
    · simp at h
    · cases h; rfl

/-- The whole query-override chain preserves the URL field. -/
theorem applyHTTPQuery_URL (q : String) (o o' : HTTPOptions)
    (h : applyHTTPQuery q o = .ok o') : o'.URL = o.URL := by
  unfold applyHTTPQuery at h
  cases h1 : setHTTPTimeout q o with
  | error e => rw [h1] at h; simp [Except.bind] at h
  | ok o1 =>
    rw [h1] at h
    simp only [Except.bind] at h
    cases h2 : setHTTPBufferSize q o1 with
    | error e => rw [h2] at h; simp at h
    | ok o2 =>
      rw [h2] at h
      simp only at h
      cases h3 : setHTTPBatchSize q o2 with
      | error e => rw [h3] at h; simp at h
      | ok o3 =>
        rw [h3] at h
        simp only at h
        cases h4 : setHTTPMaxRetries q o3 with
        | error e => rw [h4] at h; simp at h
        | ok o4 =>
          rw [h4] at h
          simp only at h
          calc o'.URL = o4.URL := setHTTPLevel_URL q o4 o' h
            _ = o3.URL := setHTTPMaxRetries_URL q o3 o4 h4
            _ = o2.URL := setHTTPBatchSize_URL q o2 o3 h3
            _ = o1.URL := setHTTPBufferSize_URL q o1 o2 h2
            _ = o.URL := setHTTPTimeout_URL q o o1 h1

/-- C6: `parseHTTPOptions("http://localhost:3000/logs")` yields that very
URL with timeout 10s, buffer capacity 1024, batch size 100 and 3 retries;
and every accepted http/https DSN gets its base URL rebuilt from the
parsed scheme, host and path only — the result never contains a `?`, so
it never carries the DSN's query string. -/
theorem parseHTTPOptions_spec :
    parseHTTPOptions "http://localhost:3000/logs" =
      .ok ⟨"http://localhost:3000/logs", 10000000000, 1024, 100, 3, 0⟩ ∧
    ∀ (dsn : String) (opts : HTTPOptions), parseHTTPOptions dsn = .ok opts →
      ∃ u, goURLParse dsn = some u ∧
        opts.URL = urlStringSHP u.scheme u.host u.path ∧
        '?' ∉ opts.URL.data := by
  constructor
  · rfl
  · intro dsn opts h
    unfold parseHTTPOptions at h
    cases hu : goURLParse dsn with
    | none => rw [hu] at h; simp at h
    | some u =>
      rw [hu] at h
      simp only at h
      split at h
      · simp at h
      · rename_i hscheme
        have hsch : u.scheme = "http" ∨ u.scheme = "https" := by
          by_cases h1 : u.scheme = "http"
          · exact Or.inl h1
          · by_cases h2 : u.scheme = "https"
            · exact Or.inr h2
            · exact absurd ⟨h1, h2⟩ hscheme
        have hurl := applyHTTPQuery_URL _ _ _ h
        refine ⟨u, rfl, hurl, ?_⟩
        rw [hurl]
        have hhp := goURLParse_no_qmark dsn u hu
        refine urlStringSHP_no_qmark _ _ _ ?_ hhp.1 hhp.2
        rcases hsch with hs | hs <;> rw [hs] <;> decide

/-- C6 witness: a DSN carrying both a path and a query: the query is
stripped and every default kept. -/
theorem parseHTTPOptions_spec_witness :
    ∃ u, goURLParse "https://logs.example.com/api/v1/logs?level=warn&x=1" = some u ∧
      HTTPOptions.URL ⟨"https://logs.example.com/api/v1/logs", 10000000000, 1024, 100, 3, 1⟩ =
        urlStringSHP u.scheme u.host u.path ∧
      '?' ∉ (HTTPOptions.URL
        ⟨"https://logs.example.com/api/v1/logs", 10000000000, 1024, 100, 3, 1⟩).data :=
  parseHTTPOptions_spec.2 "https://logs.example.com/api/v1/logs?level=warn&x=1"
    ⟨"https://logs.example.com/api/v1/logs", 10000000000, 1024, 100, 3, 1⟩ rfl

/-- An empty `max-size` value is skipped. -/
theorem setFileMaxSize_empty (q : String) (o : FileOptions)
    (hv : queryGet q "max-size" = "") : setFileMaxSize q o = .ok o := by
  simp [setFileMaxSize, hv]

/-- An empty `max-backups` value is skipped. -/
theorem setFileMaxBackups_empty (q : String) (o : FileOptions)
    (hv : queryGet q "max-backups" = "") : setFileMaxBackups q o = .ok o := by
  simp [setFileMaxBackups, hv]

/-- An empty `max-age` value is skipped. -/
theorem setFileMaxAge_empty (q : String) (o : FileOptions)
    (hv : queryGet q "max-age" = "") : setFileMaxAge q o = .ok o := by
  simp [setFileMaxAge, hv]

/-- An empty `compress` value is skipped. -/
theorem setFileCompress_empty (q : String) (o : FileOptions)
    (hv : queryGet q "compress" = "") : setFileCompress q o = .ok o := by
  simp [setFileCompress, hv]

/-- An empty file `level` value is skipped. -/
theorem setFileLevel_empty (q : String) (o : FileOptions)
    (hv : queryGet q "level" = "") : setFileLevel q o = .ok o := by
  simp [setFileLevel, hv]

/-- A file query whose five recognized keys are all empty (or absent)
changes nothing. -/
theorem applyFileQuery_empty (q : String) (o : FileOptions)
    (h1 : queryGet q "max-size" = "") (h2 : queryGet q "max-backups" = "")
    (h3 : queryGet q "max-age" = "") (h4 : queryGet q "compress" = "")
    (h5 : queryGet q "level" = "") : applyFileQuery q o = .ok o := by
  unfold applyFileQuery
  rw [setFileMaxSize_empty q o h1]
  simp only [Except.bind]
  rw [setFileMaxBackups_empty q o h2]
  simp only [Except.bind]
  rw [setFileMaxAge_empty q o h3]
  simp only [Except.bind]
  rw [setFileCompress_empty q o h4]
  simp only [Except.bind]
  exact setFileLevel_empty q o h5

/-- An empty `timeout` value is skipped. -/
theorem setHTTPTimeout_empty (q : String) (o : HTTPOptions)
    (hv : queryGet q "timeout" = "") : setHTTPTimeout q o = .ok o := by
  simp [setHTTPTimeout, hv]

/-- An empty `buffer-size` value is skipped. -/
theorem setHTTPBufferSize_empty (q : String) (o : HTTPOptions)
    (hv : queryGet q "buffer-size" = "") : setHTTPBufferSize q o = .ok o := by
  simp [setHTTPBufferSize, hv]

/-- An empty `batch-size` value is skipped. -/
theorem setHTTPBatchSize_empty (q : String) (o : HTTPOptions)
    (hv : queryGet q "batch-size" = "") : setHTTPBatchSize q o = .ok o := by
  simp [setHTTPBatchSize, hv]

/-- An empty `max-retries` value is skipped. -/
theorem setHTTPMaxRetries_empty (q : String) (o : HTTPOptions)
    (hv : queryGet q "max-retries" = "") : setHTTPMaxRetries q o = .ok o := by
  simp [setHTTPMaxRetries, hv]

/-- An empty HTTP `level` value is skipped. -/
theorem setHTTPLevel_empty (q : String) (o : HTTPOptions)
    (hv : queryGet q "level" = "") : setHTTPLevel q o = .ok o := by
  simp [setHTTPLevel, hv]

/-- An HTTP query whose five recognized keys are all empty (or absent)
changes nothing. -/
theorem applyHTTPQuery_empty (q : String) (o : HTTPOptions)
    (h1 : queryGet q "timeout" = "") (h2 : queryGet q "buffer-size" = "")
    (h3 : queryGet q "batch-size" = "") (h4 : queryGet q "max-retries" = "")
    (h5 : queryGet q "level" = "") : applyHTTPQuery q o = .ok o := by
  unfold applyHTTPQuery
  rw [setHTTPTimeout_empty q o h1]
  simp only [Except.bind]
  rw [setHTTPBufferSize_empty q o h2]
  simp only [Except.bind]
  rw [setHTTPBatchSize_empty q o h3]
  simp only [Except.bind]
  rw [setHTTPMaxRetries_empty q o h4]
  simp only [Except.bind]
  exact setHTTPLevel_empty q o h5

/-- C9 (amended): for every recognized query key present with an empty
value (and in general whenever each recognized key's first value is
empty or the key is absent), both parsers keep the documented default
for that field and succeed — here stated for all five keys of each
parser at once. -/
theorem emptyQueryValue_defaults :
    (∀ (dsn : String) (u : GoURL), goURLParse dsn = some u → u.scheme = "file" →
      (∀ k ∈ ["max-size", "max-backups", "max-age", "compress", "level"],
        queryGet u.rawQuery k = "") →
      parseFileOptions dsn = .ok ⟨u.path, "none", 100, 10, 30, 0⟩) ∧
    (∀ (dsn : String) (u : GoURL), goURLParse dsn = some u →
      u.scheme = "http" ∨ u.scheme = "https" →
      (∀ k ∈ ["timeout", "buffer-size", "batch-size", "max-retries", "level"],
        queryGet u.rawQuery k = "") →
      parseHTTPOptions dsn = .ok
        ⟨urlStringSHP u.scheme u.host u.path, 10000000000, 1024, 100, 3, 0⟩) := by
  constructor
  · intro dsn u hu hscheme hkeys
    unfold parseFileOptions
    rw [hu]
    simp only [hscheme]
    rw [if_neg (by simp)]
    exact applyFileQuery_empty _ _ (hkeys _ (by simp)) (hkeys _ (by simp))
      (hkeys _ (by simp)) (hkeys _ (by simp)) (hkeys _ (by simp))
  · intro dsn u hu hscheme hkeys
    unfold parseHTTPOptions
    rw [hu]
    simp only []
    rw [if_neg (by rcases hscheme with hs | hs <;> simp [hs])]
    exact applyHTTPQuery_empty _ _ (hkeys _ (by simp)) (hkeys _ (by simp))
      (hkeys _ (by simp)) (hkeys _ (by simp)) (hkeys _ (by simp))

/-- C9 witness: `file:///a.log?max-size=` keeps the 100 MB default and
parses; `http://h/p?timeout=` keeps the 10s default and parses. -/
theorem emptyQueryValue_defaults_witness :
    parseFileOptions "file:///a.log?max-size=" =
      .ok ⟨"/a.log", "none", 100, 10, 30, 0⟩ ∧
    parseHTTPOptions "http://h/p?timeout=" =
      .ok ⟨"http://h/p", 10000000000, 1024, 100, 3, 0⟩ :=
  ⟨emptyQueryValue_defaults.1 "file:///a.log?max-size="
      ⟨"file", "", "", "/a.log", "max-size="⟩ rfl rfl (by decide),
    emptyQueryValue_defaults.2 "http://h/p?timeout="
      ⟨"http", "", "h", "/p", "timeout="⟩ rfl (Or.inl rfl) (by decide)⟩

/-- C2: `createAdaptorCore` dispatches on the scheme `url.Parse` extracts
from the DSN: for scheme `file`, options that parse and a writable file
target construct exactly the file core carrying the parsed `FileOptions`
(and a failing file-options parse is the returned error); for `http` and
`https` alike, the HTTP core carrying the parsed `HTTPOptions` (and a
failing HTTP-options parse is the returned error); for every other
scheme, the `unsupported scheme` error — no sink is constructed. -/
theorem createAdaptorCore_dispatch (mkdirOK : String → Bool) (dsn : String) (lvl : Int)
    (u : GoURL) (h : goURLParse dsn = some u) :
    (u.scheme = "file" →
      (∀ opts closer, parseFileOptions dsn = .ok opts →
        newFileWriter mkdirOK opts = .ok closer →
        createAdaptorCore mkdirOK dsn lvl = .ok (.fileCore opts lvl, closer)) ∧
      (∀ e, parseFileOptions dsn = .error e →
        createAdaptorCore mkdirOK dsn lvl = .error (.dsnErr e))) ∧
    (u.scheme = "http" ∨ u.scheme = "https" →
      (∀ opts closer, parseHTTPOptions dsn = .ok opts →
        newHTTPWriter opts = .ok closer →
        createAdaptorCore mkdirOK dsn lvl = .ok (.httpCore opts lvl, closer)) ∧
      (∀ e, parseHTTPOptions dsn = .error e →
        createAdaptorCore mkdirOK dsn lvl = .error (.dsnErr e))) ∧
    (u.scheme ≠ "file" → u.scheme ≠ "http" → u.scheme ≠ "https" →
      createAdaptorCore mkdirOK dsn lvl = .error (.unsupportedScheme u.scheme)) := by
  refine ⟨?_, ?_, ?_⟩
  · intro hs
    constructor
    · intro opts closer hopts hw
      unfold createAdaptorCore
      rw [h]
      simp [hs, hopts, hw]
    · intro e he
      unfold createAdaptorCore
      rw [h]
      simp [hs, he]
  · intro hs
    have hnf : ¬ u.scheme = "file" := by rcases hs with h1 | h1 <;> simp [h1]
    constructor
    · intro opts closer hopts hw
      unfold createAdaptorCore
      rw [h]
      simp [hnf, hs, hopts, hw]
    · intro e he
      unfold createAdaptorCore
      rw [h]
      simp [hnf, hs, he]
  · intro h1 h2 h3
    unfold createAdaptorCore
    rw [h]
    simp [h1, h2, h3]

/-- C2 witness: `ftp://h/p` has scheme `ftp`, so the factory reports
`unsupported scheme: ftp` and constructs nothing; the other two clauses
are instantiated at the same DSN. -/
theorem createAdaptorCore_dispatch_witness :
    (GoURL.scheme ⟨"ftp", "", "h", "/p", ""⟩ = "file" →
      (∀ opts closer, parseFileOptions "ftp://h/p" = .ok opts →
        newFileWriter (fun _ => true) opts = .ok closer →
        createAdaptorCore (fun _ => true) "ftp://h/p" 0 = .ok (.fileCore opts 0, closer)) ∧
      (∀ e, parseFileOptions "ftp://h/p" = .error e →
        createAdaptorCore (fun _ => true) "ftp://h/p" 0 = .error (.dsnErr e))) ∧
    (GoURL.scheme ⟨"ftp", "", "h", "/p", ""⟩ = "http" ∨
        GoURL.scheme ⟨"ftp", "", "h", "/p", ""⟩ = "https" →
      (∀ opts closer, parseHTTPOptions "ftp://h/p" = .ok opts →
        newHTTPWriter opts = .ok closer →
        createAdaptorCore (fun _ => true) "ftp://h/p" 0 = .ok (.httpCore opts 0, closer)) ∧
      (∀ e, parseHTTPOptions "ftp://h/p" = .error e →
        createAdaptorCore (fun _ => true) "ftp://h/p" 0 = .error (.dsnErr e))) ∧
    (GoURL.scheme ⟨"ftp", "", "h", "/p", ""⟩ ≠ "file" →
      GoURL.scheme ⟨"ftp", "", "h", "/p", ""⟩ ≠ "http" →
      GoURL.scheme ⟨"ftp", "", "h", "/p", ""⟩ ≠ "https" →
      createAdaptorCore (fun _ => true) "ftp://h/p" 0 =
        .error (.unsupportedScheme (GoURL.scheme ⟨"ftp", "", "h", "/p", ""⟩))) :=
  createAdaptorCore_dispatch (fun _ => true) "ftp://h/p" 0 ⟨"ftp", "", "h", "/p", ""⟩ rfl

/-- `takeWhile`/`dropWhile` split a list at a known boundary: an all-`p`
prefix followed by a suffix whose head fails `p`. -/
theorem takeWhile_append_all (p : Char → Bool) (ds u : List Char)
    (hds : ∀ c ∈ ds, p c = true) (hu : ∀ c, u.head? = some c → p c = false) :
    (ds ++ u).takeWhile p = ds ∧ (ds ++ u).dropWhile p = u := by
  induction ds with
  | nil =>
    simp only [List.nil_append]
    cases u with
    | nil => simp
    | cons c cs =>
      have hc := hu c rfl
      simp [List.takeWhile_cons, List.dropWhile_cons, hc]
  | cons d ds' ih =>
    have hd : p d = true := hds d (by simp)
    have ih' := ih (fun c hc => hds c (by simp [hc]))
    simp [List.takeWhile_cons, List.dropWhile_cons, hd, ih'.1, ih'.2]

/-- `goAtoi` on a non-empty pure-digit string: the digits' value when it
fits in `int64`, a range error (`none`) otherwise. -/
theorem goAtoi_digits (ds : List Char) (hds : ds ≠ [])
    (hdig : ∀ c ∈ ds, isDigitChar c = true) :
    goAtoi (String.mk ds) =
      if maxI64 < (digitsVal ds : Int) then none else some ((digitsVal ds : Int)) := by
  obtain ⟨d, rest, hdd⟩ : ∃ d rest, ds = d :: rest := by
    cases ds with
    | nil => exact absurd rfl hds
    | cons d rest => exact ⟨d, rest, rfl⟩
  have hdigd : isDigitChar d = true := hdig d (by rw [hdd]; simp)
  have hdm : d ≠ '-' := by
    intro he; rw [he] at hdigd; exact absurd hdigd (by decide)
  have hdp : d ≠ '+' := by
    intro he; rw [he] at hdigd; exact absurd hdigd (by decide)
  have hh : ds.head? = some d := by rw [hdd]; rfl
  have hall : ds.all isDigitChar = true := by
    rw [List.all_eq_true]; intro c hc; exact hdig c hc
  have hmin : ¬ (digitsVal ds : Int) < minI64 := by unfold minI64; omega
  have h1 : (String.mk ds).data = ds := rfl
  simp only [goAtoi, h1, hh, Option.some.injEq]
  simp only [hdm, hdp]
  simp only [or_self, if_false, decide_False]
  rw [if_neg (by simp [hds, hall])]
  by_cases hmax : maxI64 < (digitsVal ds : Int) <;> simp [hmax, hmin]

/-- Matching `reSize` against a digit run followed by a non-digit-headed
suffix: accepted exactly when the suffix is one of the five units. -/
theorem sizeMatch_split (ds u : List Char) (hds : ds ≠ [])
    (hdig : ∀ c ∈ ds, isDigitChar c = true)
    (hu : ∀ c, u.head? = some c → isDigitChar c = false) :
    sizeMatch (ds ++ u) =
      if u = [] ∨ u = ['m'] ∨ u = ['m', 'b'] ∨ u = ['g'] ∨ u = ['g', 'b'] then some (ds, u)
      else none := by
  have htw := takeWhile_append_all isDigitChar ds u hdig hu
  simp only [sizeMatch, htw.1, htw.2]
  rw [if_neg hds]

/-- C7 (amended): for a trimmed, lowercased input consisting of digits
`N` and a trailing unit: unit empty/`m`/`mb` yields `N` when `N` fits in
`int64` and a range error otherwise; unit `g`/`gb` yields `N * 1024`
computed in wrap-around 64-bit arithmetic (equal to `N * 1024` whenever
that product fits, as the last clause states) when `N` fits and a range
error otherwise; any other trailing text is an invalid-format error. -/
theorem parseSizeString_amended (s : String) (ds u : List Char)
    (ht : (goTrimSpace s.data).map asciiLower = ds ++ u)
    (hds : ds ≠ []) (hdig : ∀ c ∈ ds, isDigitChar c = true)
    (hu : ∀ c, u.head? = some c → isDigitChar c = false) :
    ((digitsVal ds : Int) ≤ maxI64 →
      ((u = [] ∨ u = ['m'] ∨ u = ['m', 'b']) →
        parseSizeString s = .ok (digitsVal ds)) ∧
      ((u = ['g'] ∨ u = ['g', 'b']) →
        parseSizeString s = .ok (i64wrap ((digitsVal ds : Int) * 1024)))) ∧
    (maxI64 < (digitsVal ds : Int) →
      (u = [] ∨ u = ['m'] ∨ u = ['m', 'b'] ∨ u = ['g'] ∨ u = ['g', 'b']) →
      parseSizeString s = .error .outOfRange) ∧
    (¬ (u = [] ∨ u = ['m'] ∨ u = ['m', 'b'] ∨ u = ['g'] ∨ u = ['g', 'b']) →
      parseSizeString s = .error (.invalidFormat s)) ∧
    (∀ n : Nat, (n : Int) * 1024 ≤ maxI64 → i64wrap ((n : Int) * 1024) = (n : Int) * 1024) := by
  have hsm := sizeMatch_split ds u hds hdig hu
  have hga := goAtoi_digits ds hds hdig
  refine ⟨?_, ?_, ?_, ?_⟩
  · intro hle
    constructor
    · intro hmu
      have hP : u = [] ∨ u = ['m'] ∨ u = ['m', 'b'] ∨ u = ['g'] ∨ u = ['g', 'b'] := by
        rcases hmu with h | h | h <;> simp [h]
      unfold parseSizeString
      simp only []
      rw [ht, hsm, if_pos hP]
      simp only []
      rw [hga, if_neg (by omega)]
      simp only []
      rw [if_pos hmu]
    · intro hgu
      have hP : u = [] ∨ u = ['m'] ∨ u = ['m', 'b'] ∨ u = ['g'] ∨ u = ['g', 'b'] := by
        rcases hgu with h | h <;> simp [h]
      have hnm : ¬ (u = [] ∨ u = ['m'] ∨ u = ['m', 'b']) := by
        rcases hgu with h | h <;> simp [h]
      unfold parseSizeString
      simp only []
      rw [ht, hsm, if_pos hP]
      simp only []
      rw [hga, if_neg (by omega)]
      simp only []
      rw [if_neg hnm, if_pos hgu]
  · intro hgt hP
    unfold parseSizeString
    simp only []
    rw [ht, hsm, if_pos hP]
    simp only []
    rw [hga, if_pos hgt]
  · intro hnP
    unfold parseSizeString
    simp only []
    rw [ht, hsm, if_neg hnP]
  · intro n hn
    unfold i64wrap
    unfold maxI64 at hn
    norm_num
    omega

/-- C7 witness: `"7g"` parses to the wrapped product, which here is
simply 7168. -/
theorem parseSizeString_amended_witness :
    parseSizeString "7g" = .ok (i64wrap ((digitsVal ['7'] : Int) * 1024)) ∧
    i64wrap ((digitsVal ['7'] : Int) * 1024) = 7168 :=
  ⟨((parseSizeString_amended "7g" ['7'] ['g'] (by decide) (by decide) (by decide)
      (fun c hc => by
        simp only [List.head?_cons, Option.some.injEq] at hc
        subst hc
        decide)).1 (by decide)).2 (by decide),
    by decide⟩

/-- C9 counterexample: the claim's justification asserts the empty string
"would not parse as a size, integer, duration, compress literal, or
severity"; but `zapcore.ParseLevel("")` succeeds and yields the info
level, so the empty string does parse as a severity. -/
theorem zapParseLevel_empty_cex : zapParseLevel "" = some 0 := by decide

end MulanLog
